import Mathlib

/-!
Verification of the conversation-management core of the VerilogAI frontend
(`src/frontend/script.js`), as a shallow embedding in Lean 4.

Modelling conventions:
* The mutable module-level variables `conversationHistory` and
  `currentAction`, the text of the input box, and the single
  `localStorage` key `verilogai_conversation` are gathered into an
  explicit `AppState`.  Purely visual DOM effects (`renderMessages`,
  `showTypingIndicator`, `removeTypingIndicator`, `scrollToBottom`,
  `autoResize`, focus, sidebar handling) touch none of this state and are
  not modelled, except that a `renderMessages` call can throw — a
  `TypeError` on a non-array, or marked.parse's error on a non-string
  content — which matters both for the `catch` in `loadConversation`
  (modelled by `renderThrowsOn` on raw JSON) and for `addMessage`, whose
  re-render after the push and save can throw out of it (modelled by
  `renderFails` on typed histories).
* A JavaScript exception is modelled as an `Option String` result channel
  carrying `error.message`; `none` means the function returned normally.
  Mutations performed before a throw persist, so every effectful function
  returns the new state together with that channel.
* `fetch` together with `response.json()` is modelled by an environment
  `net : Request → FetchResult`: a transport failure makes the `await
  fetch` throw, a delivered response carries `ok`, `status` and the
  (possibly unparsable) JSON body.  The body's optional `reply` field is
  the only field the script reads.
* `localStorage.setItem` can throw (quota); whether it does is the
  environment flag `storageOk`. `JSON.stringify` / `JSON.parse` are
  modelled at the level of JSON values: the stored cell holds either
  nothing, an unparsable blob, or a parsed `Json` value.
  `JSON.stringify` of a message drops a key whose value is `undefined`.
* JavaScript `undefined` appearing as a message content (the script can
  push `data.reply` even when the field is absent) is modelled by
  `Option String` in `Message.content`.
-/

namespace VerilogAI

/-- Role strings passed to `addMessage` by the script: 'user' or 'assistant'. -/
inductive Role where
  | user
  | assistant
deriving DecidableEq

/-- Serialization of a role, as the string literals used in the script. -/
def Role.toStr : Role → String
  | .user => "user"
  | .assistant => "assistant"

/-- One entry of `conversationHistory`: the object `{ role, content }`
pushed by `addMessage`.  `content = none` models the JavaScript value
`undefined` (reachable when a successful response lacks `reply`). -/
structure Message where
  role : Role
  content : Option String
deriving DecidableEq

/-- The four values of the script's `currentAction` variable. -/
inductive Action where
  | chat
  | debug
  | explain
  | generate
deriving DecidableEq

/-- JSON values, the codomain of `JSON.parse` and domain of `JSON.stringify`. -/
inductive Json where
  | null
  | bool (b : Bool)
  | num (n : Int)
  | str (s : String)
  | arr (xs : List Json)
  | obj (fields : List (String × Json))

/-- What `localStorage.getItem('verilogai_conversation')` can yield:
no item (`null`), a string that is not valid JSON, or a string that
parses to a JSON value. -/
inductive StoredValue where
  | missing
  | unparsable (raw : String)
  | parsed (j : Json)

/-- JSON.stringify of one history entry; a key holding `undefined` is
dropped by `JSON.stringify`, keys appear in insertion order. -/
def msgToJson (m : Message) : Json :=
  match m.content with
  | some c => Json.obj [("role", Json.str m.role.toStr), ("content", Json.str c)]
  | none => Json.obj [("role", Json.str m.role.toStr)]

/-- JSON.stringify of the whole `conversationHistory` array. -/
def historyToJson (h : List Message) : Json :=
  Json.arr (h.map msgToJson)

/-- Reading a role string back. -/
def strToRole (s : String) : Option Role :=
  if s = "user" then some Role.user
  else if s = "assistant" then some Role.assistant
  else none

/-- The message, if any, that a parsed JSON value represents: an object
with exactly the two string fields `role` (a valid role) and `content`,
in the order `JSON.stringify` emits them. -/
def jsonToMsg : Json → Option Message
  | Json.obj [("role", Json.str r), ("content", Json.str c)] =>
    match strToRole r with
    | some role => some ⟨role, some c⟩
    | none => none
  | _ => none

/-- Decoding of a list of parsed JSON values as messages; fails if any
element fails to decode. -/
def decodeMsgList : List Json → Option (List Message)
  | [] => some []
  | x :: xs =>
    match jsonToMsg x, decodeMsgList xs with
    | some m, some t => some (m :: t)
    | _, _ => none

/-- The history, if any, that a parsed JSON value represents: an array
whose every element decodes as a message. -/
def jsonToHistory : Json → Option (List Message)
  | Json.arr xs => decodeMsgList xs
  | _ => none

/-- First binding of `key` in a JSON object's field list (property lookup). -/
def jsonLookup (key : String) : List (String × Json) → Option Json
  | [] => none
  | (k, v) :: rest => if k = key then some v else jsonLookup key rest

/-- Whether `renderMessages` succeeds on one element of a raw parsed
history: it reads `msg.content` and hands it to `marked.parse`, which
throws unless the argument is a string; property access on a non-object
(`null`, a number, …) yields `undefined` or throws.  So an element
renders iff it is an object whose `content` property is a string
(`msg.role` is only interpolated into a class name and never throws). -/
def elemRenders : Json → Bool
  | Json.obj fields =>
    match jsonLookup "content" fields with
    | some (Json.str _) => true
    | _ => false
  | _ => false

/-- Whether `renderMessages` throws on a raw parsed value assigned to
`conversationHistory`: `forEach` on a non-array throws a `TypeError`, and
on an array some element may fail to render (see `elemRenders`). -/
def renderThrowsOn : Json → Bool
  | Json.arr xs => !(xs.all elemRenders)
  | _ => true

/-- The script's `loadConversation`, run at startup over the stored cell
and the current (initially empty) value of `conversationHistory`.
Returns the new value of `conversationHistory` and whether the `catch`
logged an error.  Source behaviour: a missing item or the empty string is
falsy, so nothing happens; `JSON.parse` throwing is caught and logged with
`conversationHistory` untouched; a parsed value is assigned to
`conversationHistory` first, and only then does `renderMessages` run, so
a render failure is caught and logged with the malformed value still
assigned.  In every case the function returns normally to its caller. -/
def loadConversation (saved : StoredValue) (current : Json) : Json × Bool :=
  match saved with
  | .missing => (current, false)
  | .unparsable raw => if raw = "" then (current, false) else (current, true)
  | .parsed j => (j, renderThrowsOn j)

/-- The fixed `API_BASE` constant of the script. -/
def API_BASE : String := "http://127.0.0.1:8000"

/-- The `localStorage` key used by `saveConversation`/`loadConversation`. -/
def storageKey : String := "verilogai_conversation"

/-- Request payloads: `{prompt, history}` for chat, `{code}` for
debug/explain, `{spec}` for generate. -/
inductive Payload where
  | chatP (prompt : String) (history : List Message)
  | codeP (code : String)
  | specP (spec : String)
deriving DecidableEq

/-- One `fetch` POST: target URL and JSON body. -/
structure Request where
  url : String
  payload : Payload
deriving DecidableEq

/-- The parsed JSON body of a response, restricted to the one field the
script reads: `data.reply` (absent fields read as `undefined`). -/
structure RespBody where
  reply : Option String

/-- A delivered HTTP response: `response.ok`, `response.status`, and the
outcome of `await response.json()` (which throws on an unparsable body,
carrying the parse error's message). -/
structure HttpResponse where
  ok : Bool
  status : Nat
  body : Except String RespBody

/-- Outcome of `await fetch(...)`: either the promise rejects (network
unreachable, timeout, …) with an error message, or a response arrives. -/
inductive FetchResult where
  | transportFailure (msg : String)
  | success (r : HttpResponse)

/-- The response processing every handler performs after its `fetch`:
a rejected fetch propagates its error; `if (!response.ok) throw new
Error(...)`; then `await response.json()` may throw; otherwise the
handler returns `data.reply` — with no check that the field exists. -/
def processResponse (res : FetchResult) : Except String (Option String) :=
  match res with
  | .transportFailure m => Except.error m
  | .success r =>
    if r.ok then
      match r.body with
      | Except.error m => Except.error m
      | Except.ok b => Except.ok b.reply
    else
      Except.error ("HTTP error! status: " ++ toString r.status)

/-- The request `handleChatRequest` issues: POST to `/chat` with body
`{prompt: message, history: conversationHistory.slice(0, -1)}`; the
global `conversationHistory` is read at call time and `slice(0, -1)`
is the array without its last element. -/
def chatRequestOf (message : String) (hist : List Message) : Request :=
  ⟨API_BASE ++ "/chat", Payload.chatP message hist.dropLast⟩

/-- The request `handleDebugRequest` issues: POST `{code: message}` to `/debug`. -/
def debugRequestOf (message : String) : Request :=
  ⟨API_BASE ++ "/debug", Payload.codeP message⟩

/-- The request `handleExplainRequest` issues: POST `{code: message}` to `/explain`. -/
def explainRequestOf (message : String) : Request :=
  ⟨API_BASE ++ "/explain", Payload.codeP message⟩

/-- The request `handleGenerateRequest` issues: POST `{spec: message}` to `/generate`. -/
def generateRequestOf (message : String) : Request :=
  ⟨API_BASE ++ "/generate", Payload.specP message⟩

/-- `handleChatRequest(message)` against network environment `net`:
the single request it issues and its result (`Except.error` models the
function throwing).  `hist` is the global `conversationHistory` at call
time. -/
def handleChatRequest (message : String) (hist : List Message)
    (net : Request → FetchResult) : List Request × Except String (Option String) :=
  let req := chatRequestOf message hist
  ([req], processResponse (net req))

/-- `handleDebugRequest(message)` against network environment `net`. -/
def handleDebugRequest (message : String)
    (net : Request → FetchResult) : List Request × Except String (Option String) :=
  let req := debugRequestOf message
  ([req], processResponse (net req))

/-- `handleExplainRequest(message)` against network environment `net`. -/
def handleExplainRequest (message : String)
    (net : Request → FetchResult) : List Request × Except String (Option String) :=
  let req := explainRequestOf message
  ([req], processResponse (net req))

/-- `handleGenerateRequest(message)` against network environment `net`. -/
def handleGenerateRequest (message : String)
    (net : Request → FetchResult) : List Request × Except String (Option String) :=
  let req := generateRequestOf message
  ([req], processResponse (net req))

/-- The modelled application state: `conversationHistory`,
`currentAction`, `chatInput.value`, the `localStorage` cell, and the
environment fact whether `localStorage.setItem` currently succeeds. -/
structure AppState where
  history : List Message
  currentAction : Action
  inputValue : String
  storage : StoredValue
  storageOk : Bool

/-- Error message standing for whatever exception `localStorage.setItem`
throws when it fails (e.g. quota exceeded); the script never inspects it. -/
def storageFailureMsg : String := "QuotaExceededError"

/-- The script's `saveConversation`:
`localStorage.setItem('verilogai_conversation', JSON.stringify(conversationHistory))`.
The write can throw; nothing in the script catches that. -/
def saveConversation (s : AppState) : AppState × Option String :=
  if s.storageOk then
    ({ s with storage := StoredValue.parsed (historyToJson s.history) }, none)
  else
    (s, some storageFailureMsg)

/-- Error message standing for the exception `marked.parse` throws when
`renderMessages` hands it a non-string content (the JavaScript value
`undefined`, reachable from a missing `reply`); the script never
inspects it. -/
def markedFailureMsg : String :=
  "marked(): input parameter is of type undefined, string expected"

/-- Whether `renderMessages` throws on a typed in-memory history: it runs
`marked.parse(msg.content)` over every message of `conversationHistory`,
and `marked.parse` throws unless its argument is a string — i.e. the
render throws iff some message content is `undefined`. -/
def renderFails (h : List Message) : Bool :=
  !(h.all fun m => m.content.isSome)

/-- The script's `addMessage(role, content)`: push onto
`conversationHistory`, then `saveConversation()` (whose storage throw
propagates — the push has already happened), then `renderMessages()`
(whose `marked.parse` throw on an undefined content in the re-rendered
history likewise propagates, the push and the save both having taken
effect), then `scrollToBottom()`. -/
def addMessage (role : Role) (content : Option String) (s : AppState) :
    AppState × Option String :=
  match saveConversation { s with history := s.history ++ [⟨role, content⟩] } with
  | (s2, some e) => (s2, some e)
  | (s2, none) =>
    if renderFails s2.history then (s2, some markedFailureMsg) else (s2, none)

/-- Model of JavaScript `String.prototype.trim`: strip leading and
trailing whitespace (`chatInput.value.trim()`). -/
def jsTrim (s : String) : String :=
  ⟨((s.data.dropWhile Char.isWhitespace).reverse.dropWhile Char.isWhitespace).reverse⟩

/-- Result of one `handleSend()` call: the state it leaves behind, the
fetches it issued, and the exception it let escape (`none` normally). -/
structure SendResult where
  state : AppState
  requests : List Request
  thrown : Option String

/-- The `switch (currentAction)` inside `handleSend`: `default` falls
through to the chat handler.  `hist` is the global history at dispatch
time. -/
def dispatchRequest (a : Action) (message : String) (hist : List Message)
    (net : Request → FetchResult) : List Request × Except String (Option String) :=
  match a with
  | .debug => handleDebugRequest message net
  | .explain => handleExplainRequest message net
  | .generate => handleGenerateRequest message net
  | .chat => handleChatRequest message hist net

/-- The script's `handleSend()`.
Source order: trim the input and return if empty; `addMessage('user',
message)` (a storage throw here escapes with the input not yet cleared
and `currentAction` not reset); clear the input; dispatch on
`currentAction` inside `try`; on a normal result `addMessage('assistant',
response)` — which throws marked's render error when `response` is
`undefined` (missing `reply`); the `catch` appends one assistant message
`Error: ${error.message}`, and that `addMessage`'s own throw (its save,
or its re-render of the still-undefined content) escapes from the catch
block; finally `currentAction = 'chat'` — reached only when no exception
escaped. -/
def handleSend (net : Request → FetchResult) (s : AppState) : SendResult :=
  let message := jsTrim s.inputValue
  if message = "" then ⟨s, [], none⟩
  else
    match addMessage Role.user (some message) s with
    | (s1, some e1) => ⟨s1, [], some e1⟩
    | (s1, none) =>
      let s2 := { s1 with inputValue := "" }
      match dispatchRequest s.currentAction message s2.history net with
      | (reqs, Except.ok reply) =>
        match addMessage Role.assistant reply s2 with
        | (s3, none) => ⟨{ s3 with currentAction := Action.chat }, reqs, none⟩
        | (s3, some e3) =>
          match addMessage Role.assistant (some ("Error: " ++ e3)) s3 with
          | (s4, none) => ⟨{ s4 with currentAction := Action.chat }, reqs, none⟩
          | (s4, some e4) => ⟨s4, reqs, some e4⟩
      | (reqs, Except.error msg) =>
        match addMessage Role.assistant (some ("Error: " ++ msg)) s2 with
        | (s3, none) => ⟨{ s3 with currentAction := Action.chat }, reqs, none⟩
        | (s3, some e3) => ⟨s3, reqs, some e3⟩

/-- The `debugBtn` click listener: `currentAction = 'debug'; handleSend()`. -/
def debugBtnClick (net : Request → FetchResult) (s : AppState) : SendResult :=
  handleSend net { s with currentAction := Action.debug }

/-- The `explainBtn` click listener: `currentAction = 'explain'; handleSend()`. -/
def explainBtnClick (net : Request → FetchResult) (s : AppState) : SendResult :=
  handleSend net { s with currentAction := Action.explain }

/-- The `generateBtn` click listener: `currentAction = 'generate'; handleSend()`. -/
def generateBtnClick (net : Request → FetchResult) (s : AppState) : SendResult :=
  handleSend net { s with currentAction := Action.generate }

/-- The script's `startNewChat()`, with `confirmClear` the user's answer
should the `confirm` dialog be shown.  Returns the new state, whether
confirmation was requested (`&&` short-circuits: `confirm` runs only when
`conversationHistory.length > 1`), and the exception channel (the
`saveConversation()` call can throw). -/
def startNewChat (confirmClear : Bool) (s : AppState) :
    AppState × Bool × Option String :=
  let asked : Bool := decide (1 < s.history.length)
  if asked && !confirmClear then (s, asked, none)
  else
    let (s2, e) := saveConversation { s with history := [] }
    (s2, asked, e)

/-- The state-mutating operations a user can trigger during a session
(startup restore excluded): pressing send / Enter, the three mode
buttons, the new-chat button, and editing the input box. -/
inductive SessionOp where
  | send (net : Request → FetchResult)
  | pressDebug (net : Request → FetchResult)
  | pressExplain (net : Request → FetchResult)
  | pressGenerate (net : Request → FetchResult)
  | newChat (confirmClear : Bool)
  | editInput (v : String)

/-- Effect of one session operation on the application state. -/
def applyOp : SessionOp → AppState → AppState
  | .send net, s => (handleSend net s).state
  | .pressDebug net, s => (debugBtnClick net s).state
  | .pressExplain net, s => (explainBtnClick net s).state
  | .pressGenerate net, s => (generateBtnClick net s).state
  | .newChat c, s => (startNewChat c s).1
  | .editInput v, s => { s with inputValue := v }

/-- A response outcome that the spec classifies as a failed request:
either the transport failed or the server answered with a non-success
status (`response.ok` false). -/
def requestFails (res : FetchResult) : Prop :=
  match res with
  | .transportFailure _ => True
  | .success r => r.ok = false

/-- A network outcome whose processing cannot put an undefined content
into the history: every successful result carries a `reply` string (any
failing outcome satisfies this vacuously). -/
def deliversReplyOrFails (res : FetchResult) : Prop :=
  ∀ reply, processResponse res = Except.ok reply → reply.isSome

/-- A network environment in which every fetch is rejected by the transport. -/
def netErr : Request → FetchResult :=
  fun _ => FetchResult.transportFailure "Failed to fetch"

/-- A network environment answering every request with HTTP 200 and the
JSON body `{reply: "hi there"}`. -/
def netReplyHi : Request → FetchResult :=
  fun _ => FetchResult.success ⟨true, 200, Except.ok ⟨some "hi there"⟩⟩

/-- A network environment answering every request with HTTP 200 and a
JSON body that lacks the `reply` field entirely. -/
def netNoReplyField : Request → FetchResult :=
  fun _ => FetchResult.success ⟨true, 200, Except.ok ⟨none⟩⟩

/-- A sample state: empty history, chat mode, input "hello", storage healthy. -/
def witState : AppState :=
  ⟨[], Action.chat, "hello", StoredValue.missing, true⟩

/-- A sample state whose input box holds only whitespace, with debug mode
pending. -/
def witStateBlank : AppState :=
  ⟨[], Action.debug, " \t", StoredValue.missing, true⟩

/-- A sample state holding a two-message conversation. -/
def witState2 : AppState :=
  ⟨[⟨Role.user, some "a"⟩, ⟨Role.assistant, some "b"⟩], Action.chat, "",
    StoredValue.missing, true⟩

/-- A sample state holding a one-exchange conversation, used for the
persistence roundtrip. -/
def witState3 : AppState :=
  ⟨[⟨Role.user, some "q"⟩, ⟨Role.assistant, some "r"⟩], Action.chat, "",
    StoredValue.missing, true⟩

/-- A sample state in which `localStorage.setItem` fails. -/
def stateWithBrokenStorage : AppState :=
  ⟨[], Action.chat, "", StoredValue.missing, false⟩

/- Helper lemmas shared by the claim theorems. -/

lemma saveConversation_ok (s : AppState) (h : s.storageOk = true) :
    saveConversation s =
      ({ s with storage := StoredValue.parsed (historyToJson s.history) }, none) := by
  simp [saveConversation, h]

lemma saveConversation_fst_history (s : AppState) :
    (saveConversation s).1.history = s.history := by
  unfold saveConversation
  split <;> rfl

lemma renderFails_of_wf (h : List Message) (hwf : ∀ x ∈ h, x.content.isSome) :
    renderFails h = false := by
  simp [renderFails, List.all_eq_true]
  exact hwf

lemma renderFails_append (h t : List Message) :
    renderFails (h ++ t) = (renderFails h || renderFails t) := by
  simp [renderFails, List.all_append]

lemma wf_snoc (h : List Message) (m : Message)
    (hwf : ∀ x ∈ h, x.content.isSome) (hm : m.content.isSome) :
    ∀ x ∈ h ++ [m], x.content.isSome := by
  intro x hx
  rcases List.mem_append.1 hx with h1 | h1
  · exact hwf x h1
  · rw [List.mem_singleton] at h1
    subst h1
    exact hm

lemma wf_append_two (h : List Message) (m1 m2 : Message)
    (hwf : ∀ x ∈ h, x.content.isSome)
    (h1 : m1.content.isSome) (h2 : m2.content.isSome) :
    ∀ x ∈ h ++ [m1, m2], x.content.isSome := by
  intro x hx
  rcases List.mem_append.1 hx with hxl | hxr
  · exact hwf x hxl
  · simp only [List.mem_cons, List.not_mem_nil, or_false] at hxr
    rcases hxr with rfl | rfl
    · exact h1
    · exact h2

lemma addMessage_ok (role : Role) (content : Option String) (s : AppState)
    (hok : s.storageOk = true)
    (hwf : ∀ x ∈ s.history ++ [Message.mk role content], x.content.isSome) :
    addMessage role content s =
      ({ s with history := s.history ++ [Message.mk role content],
                storage := StoredValue.parsed
                  (historyToJson (s.history ++ [Message.mk role content])) }, none) := by
  have hr := renderFails_of_wf _ hwf
  simp [addMessage, saveConversation, hok, hr]

lemma addMessage_fail (role : Role) (content : Option String) (s : AppState)
    (h : s.storageOk = false) :
    addMessage role content s =
      ({ s with history := s.history ++ [Message.mk role content] },
        some storageFailureMsg) := by
  simp [addMessage, saveConversation, h]

lemma addMessage_fst_history (role : Role) (content : Option String) (s : AppState) :
    (addMessage role content s).1.history = s.history ++ [Message.mk role content] := by
  cases hb : s.storageOk <;>
    cases hr : renderFails (s.history ++ [Message.mk role content]) <;>
      simp [addMessage, saveConversation, hb, hr]

lemma handleSend_eq_ok (s : AppState) (net : Request → FetchResult)
    (reqs : List Request) (r : String)
    (hmsg : jsTrim s.inputValue ≠ "") (hok : s.storageOk = true)
    (hwf : ∀ x ∈ s.history, x.content.isSome)
    (hres : dispatchRequest s.currentAction (jsTrim s.inputValue)
        (s.history ++ [Message.mk Role.user (some (jsTrim s.inputValue))]) net
        = (reqs, Except.ok (some r))) :
    handleSend net s =
      ⟨{ history := s.history ++ [Message.mk Role.user (some (jsTrim s.inputValue)),
           Message.mk Role.assistant (some r)],
         currentAction := Action.chat, inputValue := "",
         storage := StoredValue.parsed (historyToJson
           (s.history ++ [Message.mk Role.user (some (jsTrim s.inputValue)),
             Message.mk Role.assistant (some r)])),
         storageOk := true }, reqs, none⟩ := by
  have hw1 := wf_snoc s.history (Message.mk Role.user (some (jsTrim s.inputValue))) hwf rfl
  have hr1 := renderFails_of_wf _ hw1
  have hr2 := renderFails_of_wf _ (wf_append_two s.history
    (Message.mk Role.user (some (jsTrim s.inputValue)))
    (Message.mk Role.assistant (some r)) hwf rfl rfl)
  unfold handleSend
  rw [if_neg hmsg]
  simp only [addMessage, saveConversation, hok, if_true, hr1, Bool.false_eq_true, if_false]
  rw [hres]
  simp [hr2, List.append_assoc]

lemma handleSend_eq_error (s : AppState) (net : Request → FetchResult)
    (reqs : List Request) (msg : String)
    (hmsg : jsTrim s.inputValue ≠ "") (hok : s.storageOk = true)
    (hwf : ∀ x ∈ s.history, x.content.isSome)
    (hres : dispatchRequest s.currentAction (jsTrim s.inputValue)
        (s.history ++ [Message.mk Role.user (some (jsTrim s.inputValue))]) net
        = (reqs, Except.error msg)) :
    handleSend net s =
      ⟨{ history := s.history ++ [Message.mk Role.user (some (jsTrim s.inputValue)),
           Message.mk Role.assistant (some ("Error: " ++ msg))],
         currentAction := Action.chat, inputValue := "",
         storage := StoredValue.parsed (historyToJson
           (s.history ++ [Message.mk Role.user (some (jsTrim s.inputValue)),
             Message.mk Role.assistant (some ("Error: " ++ msg))])),
         storageOk := true }, reqs, none⟩ := by
  have hw1 := wf_snoc s.history (Message.mk Role.user (some (jsTrim s.inputValue))) hwf rfl
  have hr1 := renderFails_of_wf _ hw1
  have hr2 := renderFails_of_wf _ (wf_append_two s.history
    (Message.mk Role.user (some (jsTrim s.inputValue)))
    (Message.mk Role.assistant (some ("Error: " ++ msg))) hwf rfl rfl)
  unfold handleSend
  rw [if_neg hmsg]
  simp only [addMessage, saveConversation, hok, if_true, hr1, Bool.false_eq_true, if_false]
  rw [hres]
  simp [hr2, List.append_assoc]

lemma handleSend_eq_okNone (s : AppState) (net : Request → FetchResult)
    (reqs : List Request)
    (hmsg : jsTrim s.inputValue ≠ "") (hok : s.storageOk = true)
    (hwf : ∀ x ∈ s.history, x.content.isSome)
    (hres : dispatchRequest s.currentAction (jsTrim s.inputValue)
        (s.history ++ [Message.mk Role.user (some (jsTrim s.inputValue))]) net
        = (reqs, Except.ok none)) :
    handleSend net s =
      ⟨{ history := s.history ++ [Message.mk Role.user (some (jsTrim s.inputValue)),
           Message.mk Role.assistant none,
           Message.mk Role.assistant (some ("Error: " ++ markedFailureMsg))],
         currentAction := s.currentAction, inputValue := "",
         storage := StoredValue.parsed (historyToJson
           (s.history ++ [Message.mk Role.user (some (jsTrim s.inputValue)),
             Message.mk Role.assistant none,
             Message.mk Role.assistant (some ("Error: " ++ markedFailureMsg))])),
         storageOk := true }, reqs, some markedFailureMsg⟩ := by
  have hw1 := wf_snoc s.history (Message.mk Role.user (some (jsTrim s.inputValue))) hwf rfl
  have hr1 := renderFails_of_wf _ hw1
  have hr2 : renderFails (s.history ++ [Message.mk Role.user (some (jsTrim s.inputValue)),
      Message.mk Role.assistant none]) = true := by
    rw [renderFails_append]
    simp [renderFails]
  have hr3 : renderFails (s.history ++ [Message.mk Role.user (some (jsTrim s.inputValue)),
      Message.mk Role.assistant none,
      Message.mk Role.assistant (some ("Error: " ++ markedFailureMsg))]) = true := by
    rw [renderFails_append]
    simp [renderFails]
  unfold handleSend
  rw [if_neg hmsg]
  simp only [addMessage, saveConversation, hok, if_true, hr1, Bool.false_eq_true, if_false]
  rw [hres]
  simp [hr2, hr3, List.append_assoc]

lemma handleSend_eq_storageFail (s : AppState) (net : Request → FetchResult)
    (hmsg : jsTrim s.inputValue ≠ "") (hok : s.storageOk = false) :
    handleSend net s =
      ⟨{ s with history := s.history ++ [Message.mk Role.user (some (jsTrim s.inputValue))] },
        [], some storageFailureMsg⟩ := by
  unfold handleSend
  rw [if_neg hmsg]
  simp [addMessage, saveConversation, hok]

lemma handleSend_extends_history (net : Request → FetchResult) (s : AppState) :
    List.IsPrefix s.history (handleSend net s).state.history := by
  unfold handleSend
  by_cases hmsg : jsTrim s.inputValue = ""
  · rw [if_pos hmsg]
  · rw [if_neg hmsg]
    have hu := addMessage_fst_history Role.user (some (jsTrim s.inputValue)) s
    split
    · rename_i s1 e1 heq
      rw [heq] at hu
      exact ⟨_, hu.symm⟩
    · rename_i s1 heq
      rw [heq] at hu
      have p1 : List.IsPrefix s.history s1.history := ⟨_, hu.symm⟩
      dsimp only
      split
      · rename_i reqs reply heq2
        have ha := addMessage_fst_history Role.assistant reply { s1 with inputValue := "" }
        split
        · rename_i s3 heq3
          rw [heq3] at ha
          exact p1.trans ⟨_, ha.symm⟩
        · rename_i s3 e3 heq3
          rw [heq3] at ha
          have p3 : List.IsPrefix s1.history s3.history := ⟨_, ha.symm⟩
          have hb := addMessage_fst_history Role.assistant (some ("Error: " ++ e3)) s3
          split
          · rename_i s4 heq4
            rw [heq4] at hb
            exact (p1.trans p3).trans ⟨_, hb.symm⟩
          · rename_i s4 e4 heq4
            rw [heq4] at hb
            exact (p1.trans p3).trans ⟨_, hb.symm⟩
      · rename_i reqs msg heq2
        have ha := addMessage_fst_history Role.assistant (some ("Error: " ++ msg))
          { s1 with inputValue := "" }
        split
        · rename_i s3 heq3
          rw [heq3] at ha
          exact p1.trans ⟨_, ha.symm⟩
        · rename_i s3 e3 heq3
          rw [heq3] at ha
          exact p1.trans ⟨_, ha.symm⟩

lemma processResponse_error_of_fails (res : FetchResult) (h : requestFails res) :
    ∃ m, processResponse res = Except.error m := by
  cases res with
  | transportFailure m => exact ⟨m, rfl⟩
  | success r =>
    refine ⟨"HTTP error! status: " ++ toString r.status, ?_⟩
    simp only [requestFails] at h
    simp [processResponse, h]

/-- C1: for every send performed in chat mode from a renderable state
(every stored content a string, so the send reaches the fetch), the
`history` field of the payload posted to the /chat endpoint equals the
conversation history at request time with its last element removed,
which is exactly the pre-send history — so the just-appended user
message is never duplicated there. -/
theorem chatHistoryPayloadExcludesPrompt (s : AppState) (net : Request → FetchResult)
    (hact : s.currentAction = Action.chat)
    (hmsg : jsTrim s.inputValue ≠ "") (hok : s.storageOk = true)
    (hwf : ∀ x ∈ s.history, x.content.isSome) :
    (handleSend net s).requests =
      [Request.mk (API_BASE ++ "/chat") (Payload.chatP (jsTrim s.inputValue)
        ((s.history ++ [Message.mk Role.user (some (jsTrim s.inputValue))]).dropLast))]
    ∧ (s.history ++ [Message.mk Role.user (some (jsTrim s.inputValue))]).dropLast
        = s.history := by
  refine ⟨?_, List.dropLast_concat⟩
  cases hp : processResponse (net (chatRequestOf (jsTrim s.inputValue)
      (s.history ++ [Message.mk Role.user (some (jsTrim s.inputValue))]))) with
  | error m =>
    rw [handleSend_eq_error s net
      [chatRequestOf (jsTrim s.inputValue)
        (s.history ++ [Message.mk Role.user (some (jsTrim s.inputValue))])] m hmsg hok hwf
      (by rw [hact]; simp only [dispatchRequest, handleChatRequest]; rw [hp])]
    simp [chatRequestOf]
  | ok reply =>
    cases reply with
    | none =>
      rw [handleSend_eq_okNone s net
        [chatRequestOf (jsTrim s.inputValue)
          (s.history ++ [Message.mk Role.user (some (jsTrim s.inputValue))])] hmsg hok hwf
        (by rw [hact]; simp only [dispatchRequest, handleChatRequest]; rw [hp])]
      simp [chatRequestOf]
    | some r =>
      rw [handleSend_eq_ok s net
        [chatRequestOf (jsTrim s.inputValue)
          (s.history ++ [Message.mk Role.user (some (jsTrim s.inputValue))])] r hmsg hok hwf
        (by rw [hact]; simp only [dispatchRequest, handleChatRequest]; rw [hp])]
      simp [chatRequestOf]

/-- Witness for C1 at a concrete state and failing network. -/
theorem chatHistoryPayloadExcludesPrompt_witness :
    (handleSend netErr witState).requests =
      [Request.mk (API_BASE ++ "/chat") (Payload.chatP (jsTrim witState.inputValue)
        ((witState.history ++
          [Message.mk Role.user (some (jsTrim witState.inputValue))]).dropLast))]
    ∧ (witState.history ++
        [Message.mk Role.user (some (jsTrim witState.inputValue))]).dropLast
        = witState.history :=
  chatHistoryPayloadExcludesPrompt witState netErr rfl (by decide) rfl (by decide)

/-- C2 (counterexample): a success-status response whose JSON body lacks
`reply` does NOT make the operation fail — the handler returns
`data.reply` unchecked, i.e. the absent value, as a normal result. -/
theorem missingReplyFieldIsNotAnError :
    (handleChatRequest "hello" [] netNoReplyField).2 = Except.ok none
    ∧ (handleChatRequest "hello" [] netNoReplyField).2.isOk = true
    ∧ (handleDebugRequest "hello" netNoReplyField).2 = Except.ok none := by
  exact ⟨rfl, rfl, rfl⟩

/-- C2 (amended): for every mode operation, a success-status response
with a parsable JSON body makes the handler return the body's `reply`
field exactly as it is — the `reply` string when present, the absent
(undefined) value when missing; no MalformedResponse error exists. -/
theorem successBodyReplyPassedThroughUnchecked (message : String) (hist : List Message)
    (net : Request → FetchResult) (status : Nat) (b : RespBody) :
    (net (chatRequestOf message hist) = FetchResult.success ⟨true, status, Except.ok b⟩ →
      (handleChatRequest message hist net).2 = Except.ok b.reply)
    ∧ (net (debugRequestOf message) = FetchResult.success ⟨true, status, Except.ok b⟩ →
      (handleDebugRequest message net).2 = Except.ok b.reply)
    ∧ (net (explainRequestOf message) = FetchResult.success ⟨true, status, Except.ok b⟩ →
      (handleExplainRequest message net).2 = Except.ok b.reply)
    ∧ (net (generateRequestOf message) = FetchResult.success ⟨true, status, Except.ok b⟩ →
      (handleGenerateRequest message net).2 = Except.ok b.reply) := by
  refine ⟨?_, ?_, ?_, ?_⟩ <;> intro h <;>
    simp [handleChatRequest, handleDebugRequest, handleExplainRequest,
      handleGenerateRequest, processResponse, h]

/-- Witness for C2's amended theorem: concrete chat request whose
response body carries `reply`. -/
theorem successBodyReplyPassedThroughUnchecked_witness :
    (handleChatRequest "hello" [] netReplyHi).2 = Except.ok (some "hi there") :=
  (successBodyReplyPassedThroughUnchecked "hello" [] netReplyHi 200
    ⟨some "hi there"⟩).1 rfl

/-- C3 (counterexample): a debug-mode send of "hello" answered by HTTP
200 with a body lacking `reply` leaves the pending action stuck on
`debug` — `addMessage('assistant', undefined)` makes the re-render throw
marked's error, the catch-block append re-renders the same undefined
content and throws again, the exception escapes, and the reset at the
end of `handleSend` is never reached. -/
theorem debugModeStuckOnMissingReply :
    (debugBtnClick netNoReplyField witState).state.currentAction = Action.debug
    ∧ (debugBtnClick netNoReplyField witState).thrown = some markedFailureMsg
    ∧ Action.debug ≠ Action.chat := by
  refine ⟨rfl, rfl, by decide⟩

/-- C3 (amended): a send performed after pressing the debug button with
non-empty input in a renderable state issues exactly one request, to the
debug endpoint; and whenever the send can complete without an escaping
exception — on every request failure, and on every success whose body
carries a `reply` string — the pending action is reset to `chat` with
nothing thrown.  (A success lacking `reply` instead escapes with
marked's render error and leaves the mode un-reset, per the
counterexample.) -/
theorem debugModeOneShot (s : AppState) (net : Request → FetchResult)
    (hmsg : jsTrim s.inputValue ≠ "") (hok : s.storageOk = true)
    (hwf : ∀ x ∈ s.history, x.content.isSome)
    (hnet : deliversReplyOrFails (net (debugRequestOf (jsTrim s.inputValue)))) :
    (debugBtnClick net s).requests
      = [Request.mk (API_BASE ++ "/debug") (Payload.codeP (jsTrim s.inputValue))]
    ∧ (debugBtnClick net s).state.currentAction = Action.chat
    ∧ (debugBtnClick net s).thrown = none := by
  unfold debugBtnClick
  cases hp : processResponse (net (debugRequestOf (jsTrim s.inputValue))) with
  | error m =>
    rw [handleSend_eq_error { s with currentAction := Action.debug } net
      [debugRequestOf (jsTrim s.inputValue)] m hmsg hok hwf
      (by simp only [dispatchRequest, handleDebugRequest]; rw [hp])]
    exact ⟨rfl, rfl, rfl⟩
  | ok reply =>
    cases reply with
    | none => exact absurd (hnet none hp) (by simp)
    | some r =>
      rw [handleSend_eq_ok { s with currentAction := Action.debug } net
        [debugRequestOf (jsTrim s.inputValue)] r hmsg hok hwf
        (by simp only [dispatchRequest, handleDebugRequest]; rw [hp])]
      exact ⟨rfl, rfl, rfl⟩

/-- Witness for C3's amended theorem at a concrete state and failing
network. -/
theorem debugModeOneShot_witness :
    (debugBtnClick netErr witState).requests
      = [Request.mk (API_BASE ++ "/debug") (Payload.codeP (jsTrim witState.inputValue))]
    ∧ (debugBtnClick netErr witState).state.currentAction = Action.chat
    ∧ (debugBtnClick netErr witState).thrown = none :=
  debugModeOneShot witState netErr (by decide) rfl (by decide)
    (fun reply h => Except.noConfusion h)

/-- C4: when every request fails (transport failure or non-success
status), a send with non-empty input from a renderable state appends
exactly the user message and one assistant message whose content begins
with "Error: ", leaves the prior history as an unchanged prefix, and
lets no exception escape. -/
theorem failedRequestAppendsSingleError (s : AppState) (net : Request → FetchResult)
    (hmsg : jsTrim s.inputValue ≠ "") (hok : s.storageOk = true)
    (hwf : ∀ x ∈ s.history, x.content.isSome)
    (hfail : ∀ req : Request, requestFails (net req)) :
    ∃ e, (handleSend net s).state.history
        = s.history ++ [Message.mk Role.user (some (jsTrim s.inputValue)),
            Message.mk Role.assistant (some ("Error: " ++ e))]
      ∧ (handleSend net s).thrown = none := by
  cases hact : s.currentAction with
  | chat =>
    obtain ⟨m, hm⟩ := processResponse_error_of_fails _ (hfail (chatRequestOf (jsTrim s.inputValue)
      (s.history ++ [Message.mk Role.user (some (jsTrim s.inputValue))])))
    refine ⟨m, ?_, ?_⟩ <;>
      rw [handleSend_eq_error s net
        [chatRequestOf (jsTrim s.inputValue)
          (s.history ++ [Message.mk Role.user (some (jsTrim s.inputValue))])] m hmsg hok hwf
        (by rw [hact]; simp only [dispatchRequest, handleChatRequest]; rw [hm])]
  | debug =>
    obtain ⟨m, hm⟩ := processResponse_error_of_fails _ (hfail (debugRequestOf (jsTrim s.inputValue)))
    refine ⟨m, ?_, ?_⟩ <;>
      rw [handleSend_eq_error s net [debugRequestOf (jsTrim s.inputValue)] m hmsg hok hwf
        (by rw [hact]; simp only [dispatchRequest, handleDebugRequest]; rw [hm])]
  | explain =>
    obtain ⟨m, hm⟩ := processResponse_error_of_fails _ (hfail (explainRequestOf (jsTrim s.inputValue)))
    refine ⟨m, ?_, ?_⟩ <;>
      rw [handleSend_eq_error s net [explainRequestOf (jsTrim s.inputValue)] m hmsg hok hwf
        (by rw [hact]; simp only [dispatchRequest, handleExplainRequest]; rw [hm])]
  | generate =>
    obtain ⟨m, hm⟩ := processResponse_error_of_fails _ (hfail (generateRequestOf (jsTrim s.inputValue)))
    refine ⟨m, ?_, ?_⟩ <;>
      rw [handleSend_eq_error s net [generateRequestOf (jsTrim s.inputValue)] m hmsg hok hwf
        (by rw [hact]; simp only [dispatchRequest, handleGenerateRequest]; rw [hm])]

/-- Witness for C4 at a concrete state whose every request is rejected
by the transport. -/
theorem failedRequestAppendsSingleError_witness :
    ∃ e, (handleSend netErr witState).state.history
        = witState.history ++ [Message.mk Role.user (some (jsTrim witState.inputValue)),
            Message.mk Role.assistant (some ("Error: " ++ e))]
      ∧ (handleSend netErr witState).thrown = none :=
  failedRequestAppendsSingleError witState netErr (by decide) rfl (by decide)
    (fun _ => True.intro)

/-- C5 (counterexample): the persisted string "42" parses successfully,
so `loadConversation` assigns the malformed value 42 to the in-memory
history — the history is NOT left empty (and the render failure is what
gets logged). -/
theorem malformedParsedValueAssignedToHistory :
    loadConversation (StoredValue.parsed (Json.num 42)) (Json.arr []) = (Json.num 42, true)
    ∧ Json.num 42 ≠ Json.arr [] :=
  ⟨rfl, fun h => Json.noConfusion h⟩

/-- C5 (amended): restore never raises to its caller; a missing key or
unparsable data leaves the in-memory history unchanged (hence empty at
startup), with a diagnostic logged in the non-empty unparsable case; but
any value that parses — well-formed or not — is assigned to the history
as-is, so starting from an empty history the history stays empty iff the
stored value is missing, unparsable, or parses to the empty array. -/
theorem restoreNeverRaisesButKeepsParsedValue (raw : String) (j cur : Json)
    (saved : StoredValue) :
    loadConversation StoredValue.missing cur = (cur, false)
    ∧ (raw ≠ "" → loadConversation (StoredValue.unparsable raw) cur = (cur, true))
    ∧ (loadConversation (StoredValue.parsed j) cur).1 = j
    ∧ ((loadConversation saved (Json.arr [])).1 = Json.arr [] ↔
        saved = StoredValue.missing ∨ (∃ r, saved = StoredValue.unparsable r) ∨
        saved = StoredValue.parsed (Json.arr [])) := by
  refine ⟨rfl, ?_, rfl, ?_⟩
  · intro h
    simp [loadConversation, h]
  · cases saved with
    | missing => simp [loadConversation]
    | unparsable r =>
      by_cases hr : r = "" <;> simp [loadConversation, hr]
    | parsed jv => simp [loadConversation]

/-- Witness for C5's amended theorem: unparsable stored data leaves the
history untouched and logs. -/
theorem restoreNeverRaisesButKeepsParsedValue_witness :
    loadConversation (StoredValue.unparsable "not json") (Json.arr [])
      = (Json.arr [], true) :=
  (restoreNeverRaisesButKeepsParsedValue "not json" Json.null (Json.arr [])
    StoredValue.missing).2.1 (by decide)

/-- C6: `startNewChat` asks for confirmation exactly when the history
holds more than one message; a refused confirmation changes nothing, and
whenever it proceeds (short history, or confirmed) it empties the history
and persists the empty state, returning normally. -/
theorem clearConfirmationPolicy (s : AppState) (c : Bool) (hok : s.storageOk = true) :
    (startNewChat c s).2.1 = decide (1 < s.history.length)
    ∧ (1 < s.history.length → c = false → startNewChat c s = (s, true, none))
    ∧ ((¬ 1 < s.history.length ∨ c = true) →
        (startNewChat c s).1.history = []
        ∧ (startNewChat c s).1.storage = StoredValue.parsed (historyToJson [])
        ∧ (startNewChat c s).2.2 = none) := by
  have hsave := saveConversation_ok { s with history := ([] : List Message) } hok
  by_cases hc : (decide (1 < s.history.length) && !c) = true
  · refine ⟨?_, ?_, ?_⟩
    · unfold startNewChat
      rw [if_pos hc]
    · intro h1 h2
      unfold startNewChat
      rw [if_pos hc]
      simp [h1]
    · intro h
      rw [Bool.and_eq_true, decide_eq_true_iff, Bool.not_eq_eq_eq_not, Bool.not_true] at hc
      rcases h with h | h
      · exact absurd hc.1 h
      · rw [h] at hc
        exact absurd hc.2 (by simp)
  · have hunf : startNewChat c s =
        ({ s with history := [], storage := StoredValue.parsed (historyToJson []) },
          decide (1 < s.history.length), none) := by
      unfold startNewChat
      rw [if_neg hc, hsave]
    refine ⟨?_, ?_, ?_⟩
    · rw [hunf]
    · intro h1 h2
      simp [h1, h2] at hc
    · intro h
      rw [hunf]
      exact ⟨rfl, rfl, rfl⟩

/-- Witness for C6: with a two-message history and a declined
confirmation dialog nothing changes. -/
theorem clearConfirmationPolicy_witness :
    startNewChat false witState2 = (witState2, true, none) :=
  (clearConfirmationPolicy witState2 false rfl).2.1 (by decide) rfl

lemma jsonToMsg_msgToJson (m : Message) (h : m.content.isSome) :
    jsonToMsg (msgToJson m) = some m := by
  rcases m with ⟨role, content⟩
  cases content with
  | none => simp at h
  | some c => cases role <;> rfl

lemma jsonToHistory_historyToJson (h : List Message)
    (hwf : ∀ m ∈ h, m.content.isSome) :
    jsonToHistory (historyToJson h) = some h := by
  induction h with
  | nil => rfl
  | cons m t ih =>
    have hm : jsonToMsg (msgToJson m) = some m := jsonToMsg_msgToJson m (hwf m (by simp))
    have ht := ih (fun x hx => hwf x (by simp [hx]))
    simp only [historyToJson, jsonToHistory, List.map_cons, decodeMsgList] at ht ⊢
    rw [hm, ht]

lemma elemRenders_msgToJson (m : Message) (h : m.content.isSome) :
    elemRenders (msgToJson m) = true := by
  rcases m with ⟨role, content⟩
  cases content with
  | none => simp at h
  | some c => rfl

lemma renderThrowsOn_historyToJson (h : List Message)
    (hwf : ∀ m ∈ h, m.content.isSome) :
    renderThrowsOn (historyToJson h) = false := by
  have hall : (List.map msgToJson h).all elemRenders = true := by
    rw [List.all_eq_true]
    intro j hj
    rw [List.mem_map] at hj
    obtain ⟨m, hm, rfl⟩ := hj
    exact elemRenders_msgToJson m (hwf m hm)
  simp [renderThrowsOn, historyToJson, hall]

/-- C7: with working storage and a well-formed history (no undefined
contents), saving persists exactly the serialized history, restoring
that cell yields the very value that was saved without any diagnostic,
and that value decodes back to the identical ordered history. -/
theorem saveThenRestoreRoundtrip (s : AppState) (cur : Json)
    (hwf : ∀ m ∈ s.history, m.content.isSome) (hok : s.storageOk = true) :
    (saveConversation s).1.storage = StoredValue.parsed (historyToJson s.history)
    ∧ (saveConversation s).2 = none
    ∧ loadConversation (saveConversation s).1.storage cur = (historyToJson s.history, false)
    ∧ jsonToHistory (historyToJson s.history) = some s.history := by
  have h1 := saveConversation_ok s hok
  refine ⟨by rw [h1], by rw [h1], ?_, jsonToHistory_historyToJson _ hwf⟩
  rw [h1]
  simp [loadConversation, renderThrowsOn_historyToJson _ hwf]

/-- Witness for C7 on a concrete two-message conversation. -/
theorem saveThenRestoreRoundtrip_witness :
    loadConversation (saveConversation witState3).1.storage Json.null
      = (historyToJson witState3.history, false)
    ∧ jsonToHistory (historyToJson witState3.history) = some witState3.history :=
  ⟨(saveThenRestoreRoundtrip witState3 Json.null (by decide) rfl).2.2.1,
   (saveThenRestoreRoundtrip witState3 Json.null (by decide) rfl).2.2.2⟩

/-- C8 (counterexample): when `localStorage.setItem` fails, `addMessage`
still appends the message in-memory but the storage error escapes to the
caller — it is neither logged nor swallowed. -/
theorem storageErrorEscapesAppend :
    (addMessage Role.user (some "hi") stateWithBrokenStorage).2 = some storageFailureMsg
    ∧ (addMessage Role.user (some "hi") stateWithBrokenStorage).1.history
        = [Message.mk Role.user (some "hi")] := by
  exact ⟨rfl, rfl⟩

/-- C8 (amended): `addMessage` always appends the message to the
in-memory history, and its errors are NOT swallowed: a storage failure
propagates to the caller (the message still appended in-memory, the
stored cell unchanged); with working storage the append persists and
returns normally when the resulting history renders, but appending an
undefined content (a missing `reply`) makes the subsequent
`renderMessages` throw marked's error out of `addMessage` — a
non-storage failure — after the push and the save both took effect. -/
theorem appendAppendsButErrorsPropagate (role : Role) (content : Option String)
    (s : AppState) :
    (addMessage role content s).1.history = s.history ++ [Message.mk role content]
    ∧ (s.storageOk = false → addMessage role content s =
        ({ s with history := s.history ++ [Message.mk role content] },
          some storageFailureMsg))
    ∧ (s.storageOk = true → (∀ x ∈ s.history, x.content.isSome) → content.isSome →
        addMessage role content s =
        ({ s with history := s.history ++ [Message.mk role content],
                  storage := StoredValue.parsed
                    (historyToJson (s.history ++ [Message.mk role content])) }, none))
    ∧ (s.storageOk = true → content = none →
        (addMessage role content s).2 = some markedFailureMsg) := by
  refine ⟨addMessage_fst_history role content s,
    fun h => addMessage_fail role content s h,
    fun hok hwf hc => addMessage_ok role content s hok (wf_snoc _ _ hwf hc),
    fun hok hc => ?_⟩
  subst hc
  have hr : renderFails (s.history ++ [Message.mk role none]) = true := by
    rw [renderFails_append]
    simp [renderFails]
  simp [addMessage, saveConversation, hok, hr]

/-- Witness for C8's amended theorem at concrete states: a failing
store propagates the storage error with the message appended; a healthy
store propagates marked's error on an undefined content. -/
theorem appendAppendsButErrorsPropagate_witness :
    (addMessage Role.user (some "hi") stateWithBrokenStorage).1.history
      = stateWithBrokenStorage.history ++ [Message.mk Role.user (some "hi")]
    ∧ addMessage Role.user (some "hi") stateWithBrokenStorage =
        ({ stateWithBrokenStorage with
            history := stateWithBrokenStorage.history ++ [Message.mk Role.user (some "hi")] },
          some storageFailureMsg)
    ∧ (addMessage Role.assistant none witState2).2 = some markedFailureMsg :=
  ⟨(appendAppendsButErrorsPropagate Role.user (some "hi") stateWithBrokenStorage).1,
   (appendAppendsButErrorsPropagate Role.user (some "hi") stateWithBrokenStorage).2.1 rfl,
   (appendAppendsButErrorsPropagate Role.assistant none witState2).2.2.2 rfl rfl⟩

/-- C9: every session operation on the conversation history either
leaves the previous history as a prefix (messages are only appended at
the end) or empties it entirely (the explicit clear); no operation
modifies, reorders or removes an already-appended message — on the
exception paths included, since every throw happens after the push. -/
theorem historyAppendOnlyOrCleared (op : SessionOp) (s : AppState) :
    List.IsPrefix s.history (applyOp op s).history ∨ (applyOp op s).history = [] := by
  cases op with
  | send net => exact Or.inl (handleSend_extends_history net s)
  | pressDebug net =>
    exact Or.inl (handleSend_extends_history net { s with currentAction := Action.debug })
  | pressExplain net =>
    exact Or.inl (handleSend_extends_history net { s with currentAction := Action.explain })
  | pressGenerate net =>
    exact Or.inl (handleSend_extends_history net { s with currentAction := Action.generate })
  | newChat c =>
    simp only [applyOp]
    by_cases hc : (decide (1 < s.history.length) && !c) = true
    · left
      unfold startNewChat
      rw [if_pos hc]
    · right
      unfold startNewChat
      rw [if_neg hc]
      rcases hs : saveConversation { s with history := ([] : List Message) } with ⟨s2, e⟩
      have h2 : s2.history = [] := by
        have h3 := saveConversation_fst_history { s with history := ([] : List Message) }
        rw [hs] at h3
        exact h3
      simpa using h2
  | editInput v => exact Or.inl (List.prefix_refl _)

/-- C10: a send invoked on empty or whitespace-only input is a complete
no-op on the modelled state — no message appended, storage untouched, no
request issued, nothing thrown — and in particular the pending action is
NOT reset: a mode button pressed with empty input leaves its mode
selected for the next non-empty submission. -/
theorem sendEmptyInputIsNoOp (s : AppState) (net : Request → FetchResult)
    (h : jsTrim s.inputValue = "") :
    handleSend net s = ⟨s, [], none⟩
    ∧ debugBtnClick net s = ⟨{ s with currentAction := Action.debug }, [], none⟩
    ∧ explainBtnClick net s = ⟨{ s with currentAction := Action.explain }, [], none⟩
    ∧ generateBtnClick net s = ⟨{ s with currentAction := Action.generate }, [], none⟩ := by
  refine ⟨?_, ?_, ?_, ?_⟩ <;>
    simp [handleSend, debugBtnClick, explainBtnClick, generateBtnClick, h]

/-- Witness for C10 at a concrete state with whitespace-only input and
debug mode pending. -/
theorem sendEmptyInputIsNoOp_witness :
    jsTrim witStateBlank.inputValue = ""
    ∧ (handleSend netErr witStateBlank = ⟨witStateBlank, [], none⟩
      ∧ debugBtnClick netErr witStateBlank
          = ⟨{ witStateBlank with currentAction := Action.debug }, [], none⟩
      ∧ explainBtnClick netErr witStateBlank
          = ⟨{ witStateBlank with currentAction := Action.explain }, [], none⟩
      ∧ generateBtnClick netErr witStateBlank
          = ⟨{ witStateBlank with currentAction := Action.generate }, [], none⟩) :=
  ⟨by decide, sendEmptyInputIsNoOp witStateBlank netErr (by decide)⟩

end VerilogAI
